import Mathlib

set_option maxRecDepth 80000

/- Shallow embedding of the mtg_utils repository: the two Scryfall deck-export
converters (scryfall_csv_to_txt.py and scryfall_json_to_txt.py).  File input,
output writing and printing are modelled at the boundary: each pipeline takes
the already-read input and returns `Except String (Option String × String)`,
where the first component is the text written to the destination file (if any)
and the second is the full text surfaced on standard output.  A raised Python
exception is modelled as `.error`. -/

/- Python helpers.  `str.split(sep)` for a single-character separator. -/
def pySplitChar (sep : Char) : List Char → List (List Char)
  | [] => [[]]
  | c :: rest =>
    let r := pySplitChar sep rest
    if c == sep then [] :: r
    else
      match r with
      | [] => [[c]]
      | p :: ps => (c :: p) :: ps

def pySplit (s : String) (sep : Char) : List String :=
  (pySplitChar sep s.data).map (fun l => ⟨l⟩)

/- `str.startswith` / `str.endswith` for a literal pattern. -/
def pyStartsWith (s pre : String) : Bool := pre.data.isPrefixOf s.data

def pyEndsWith (s suf : String) : Bool := suf.data.isSuffixOf s.data

/- `str.strip(c)`: removes every leading and trailing occurrence of `c`. -/
def pyStrip (s : String) (c : Char) : String :=
  ⟨((s.data.dropWhile (· == c)).reverse.dropWhile (· == c)).reverse⟩

/- `str.upper()` (inputs here are ASCII set codes). -/
def pyUpper (s : String) : String := ⟨s.data.map Char.toUpper⟩

/- `list.index(x)`: first index of `x`, `ValueError` when absent. -/
def pyIndex (xs : List String) (x : String) : Except String Nat :=
  if x ∈ xs then .ok (xs.indexOf x) else .error ("ValueError: " ++ x)

/- `xs[i]` for a non-negative index. -/
def pyGetN (xs : List String) (i : Nat) : Except String String :=
  match xs.get? i with
  | some v => .ok v
  | none => .error "IndexError: list index out of range"

/- `xs[i]` for a possibly negative Python index (negative counts from the
end), as used by `card[idx_code - 1]`. -/
def pyGetI (xs : List String) (i : Int) : Except String String :=
  let j : Int := if i < 0 then i + xs.length else i
  if h : 0 ≤ j ∧ j < (xs.length : Int) then
    .ok (xs.get ⟨j.toNat, by omega⟩)
  else .error "IndexError: list index out of range"

/- The character class `\s` of Python's `re` (ASCII range; the inputs contain
no non-ASCII whitespace). -/
def isWs (c : Char) : Bool :=
  c == ' ' || c == '\t' || c == '\n' || c == '\r' || c == '\x0b' || c == '\x0c'

/- Matching of the regex alternative `\s//\s.*` at the head of the remaining
input: a whitespace character, two forward slashes, a whitespace character,
then `.*` greedily consumes every following character up to (excluding) a
newline.  Returns the input remaining after the match. -/
def matchFace : List Char → Option (List Char)
  | a :: '/' :: '/' :: b :: rest =>
    if isWs a && isWs b then some (rest.dropWhile (fun c => !(c == '\n'))) else none
  | _ => none

/- Matching of the literal alternative `" Token"` (no anchor), as in
scryfall_json_to_txt.py. -/
def matchTok : List Char → Option (List Char)
  | ' ' :: 'T' :: 'o' :: 'k' :: 'e' :: 'n' :: rest => some rest
  | _ => none

/- Matching of the alternative `\sToken$`, as in scryfall_csv_to_txt.py.
Without MULTILINE, `$` matches at the end of the string or just before a
single trailing newline. -/
def matchTokEnd : List Char → Option (List Char)
  | a :: 'T' :: 'o' :: 'k' :: 'e' :: 'n' :: rest =>
    if isWs a && (rest == ([] : List Char) || rest == ['\n']) then some rest else none
  | _ => none

/- `re.sub("(\s//\s.*|ALT)", "", s)`: scan left to right, at each position try
the face alternative then `alt`; on a match emit nothing and continue after
the match, otherwise keep the character.  Fuelled by the input length (every
match consumes at least one character, so `s.length` fuel always suffices). -/
def reSubQuirks (alt : List Char → Option (List Char)) : Nat → List Char → List Char
  | _, [] => []
  | 0, s => s
  | fuel+1, c :: rest =>
    match matchFace (c :: rest) with
    | some rem => reSubQuirks alt fuel rem
    | none =>
      match alt (c :: rest) with
      | some rem => reSubQuirks alt fuel rem
      | none => c :: reSubQuirks alt fuel rest

/- scryfall_json_to_txt.fix_name_formatting_quirks:
`re.sub("(\s//\s.*| Token)", "", name)`. -/
def fix_name_formatting_quirks (name : String) : String :=
  ⟨reSubQuirks matchTok name.data.length name.data⟩

/- scryfall_csv_to_txt.fix_other_name_formatting_quirks:
`re.sub("(\s//\s.*|\sToken$)", "", name)`. -/
def fix_other_name_formatting_quirks (name : String) : String :=
  ⟨reSubQuirks matchTokEnd name.data.length name.data⟩

/- scryfall_json_to_txt.fix_set_code. -/
def fix_set_code (set_code : String) : String := pyUpper set_code

/- scryfall_json_to_txt.fix_collector_number: each character of the source
literal "â˜…" is removed everywhere, as by `str.replace(c, "")`. -/
def fix_collector_number (collector_number : String) : String :=
  ⟨((collector_number.data.filter (fun c => !(c == 'â'))).filter
      (fun c => !(c == '˜'))).filter (fun c => !(c == '…'))⟩

/- The while loop of scryfall_csv_to_txt.normalize_name: starting from the
cell `cur`, as long as the current cell does not end in a quotation mark,
advance to the next cell and record it; returns the extra cells consumed and
their count.  Running past the end of the row is an IndexError. -/
def collect (cur : String) (rest : List String) : Except String (List String × Nat) :=
  if pyEndsWith cur "\"" then .ok ([], 0)
  else
    match rest with
    | [] => .error "IndexError: list index out of range"
    | x :: xs =>
      match collect x xs with
      | .ok (ps, k) => .ok (x :: ps, k + 1)
      | .error e => .error e

/- scryfall_csv_to_txt.normalize_name. -/
def normalize_name (idx_name : Nat) (card : List String) (expected_num_columns : Nat) :
    Except String (String × Nat) :=
  match card.get? idx_name with
  | none => .error "IndexError: list index out of range"
  | some name =>
    if pyStartsWith name "\"" = true ∧ card.length > expected_num_columns then
      match collect name (card.drop (idx_name + 1)) with
      | .ok (ps, off) => .ok (pyStrip (String.intercalate "," (name :: ps)) '"', off)
      | .error e => .error e
    else .ok (name, 0)

def basic_land_names : List String := ["Plains", "Mountain", "Forest", "Island", "Swamp"]

/- The fixed multi-line banner literal shared by both pipelines. -/
def banner : String :=
  "\n\n-----------------------------------------------------------\n| NOTE:                                                    |\n| Basic lands are not supported by TCGPlayer's mass entry. |\n| Copy these somewhere so you can find them manually.      |\n| They should already be in \"search-ready\" format.         |\n-----------------------------------------------------------\n\n"

/- The loop body of scryfall_csv_to_txt.main for one data row: returns the
land line (left) or the mass-entry line (right). -/
def csv_card (csv_column_names : List String) (idx_count idx_name : Nat)
    (card : List String) : Except String (String ⊕ String) := do
  let count ← pyGetN card idx_count
  let (name0, name_offset) ← normalize_name idx_name card csv_column_names.length
  let name := fix_other_name_formatting_quirks name0
  let i_code ← pyIndex csv_column_names "set_code"
  let i_num ← pyIndex csv_column_names "collector_number"
  let idx_code := i_code + name_offset
  let idx_num := i_num + name_offset
  let set_code ← pyGetN card idx_code
  let num ← pyGetN card idx_num
  if basic_land_names.contains name then do
    let prev ← pyGetI card ((idx_code : Int) - 1)
    pure (.inl (name ++ " (" ++ num ++ ") - " ++ prev ++ " (" ++ pyUpper set_code ++ ")"))
  else
    pure (.inr (count ++ " " ++ name ++ " [" ++ pyUpper set_code ++ "] " ++ num))

/- The full row loop of scryfall_csv_to_txt.main, accumulating `new_lines`
and `lands` in row order. -/
def csv_rows (csv_column_names : List String) (idx_count idx_name : Nat) :
    List (List String) → Except String (List String × List String)
  | [] => .ok ([], [])
  | card :: rest => do
    let r ← csv_card csv_column_names idx_count idx_name card
    let (ms, ls) ← csv_rows csv_column_names idx_count idx_name rest
    match r with
    | .inl land => pure (ms, land :: ls)
    | .inr m => pure (m :: ms, ls)

/- scryfall_csv_to_txt.main, from the list of raw input lines (as returned by
readlines(): each line keeps its terminator).  Result: (file text, stdout).
Named csv_main because Lean reserves the name main for executables. -/
def csv_main (lines : List String) (dest_filename : String) :
    Except String (Option String × String) :=
  match lines.map (fun l => pySplit l ',') with
  | [] => .error "IndexError: list index out of range"
  | csv_column_names :: cards => do
    let idx_count ← pyIndex csv_column_names "count"
    let idx_name ← pyIndex csv_column_names "name"
    let (new_lines, lands) ← csv_rows csv_column_names idx_count idx_name cards
    let formatted_card_content :=
      String.intercalate "\n" new_lines ++ banner ++ String.intercalate "\n" lands
    if dest_filename ≠ "" then pure (some formatted_card_content, "")
    else pure (none, formatted_card_content ++ "\n")

/- The JSON document shape used by scryfall_json_to_txt: each record has
count, printing_specified, and a card_digest with name, set, and
collector_number. -/
structure CardDigest where
  name : String
  set : String
  collector_number : String
deriving DecidableEq

structure CardEntry where
  count : Int
  printing_specified : Bool
  card_digest : CardDigest
deriving DecidableEq

/- The ordered "entries" object: section name to record list, in document
order (Python dicts preserve insertion order). -/
abbrev Deck := List (String × List CardEntry)

/- The loop body of scryfall_json_to_txt for one record: the land line (left)
or the mass-entry line (right). -/
def json_card (card : CardEntry) : String ⊕ String :=
  let name := fix_name_formatting_quirks card.card_digest.name
  let set_code := fix_set_code card.card_digest.set
  let collector_number := fix_collector_number card.card_digest.collector_number
  if basic_land_names.contains card.card_digest.name then
    .inl (name ++ " (" ++ collector_number ++ ") - (" ++ set_code ++ ")")
  else
    let entry_line := toString card.count ++ " " ++ name
    .inr (if card.printing_specified then
            entry_line ++ " [" ++ set_code ++ "] " ++ collector_number
          else entry_line)

/- One section's records, in record order. -/
def json_section : List CardEntry → List String × List String
  | [] => ([], [])
  | c :: rest =>
    let r := json_section rest
    match json_card c with
    | .inl land => (r.1, land :: r.2)
    | .inr m => (m :: r.1, r.2)

/- The section loop of scryfall_json_to_txt: a section contributes exactly
when its name is in the selection or the selection contains "all". -/
def json_entries : Deck → List String → List String × List String
  | [], _ => ([], [])
  | (card_section, cards) :: rest, include_sections =>
    let r := json_entries rest include_sections
    if card_section ∈ include_sections ∨ "all" ∈ include_sections then
      ((json_section cards).1 ++ r.1, (json_section cards).2 ++ r.2)
    else r

/- scryfall_json_to_txt.scryfall_json_to_txt.  `none` models a parsed document
without the top-level "entries" key (KeyError).  The land printout is built
only when `lands` is non-empty, and is always printed to stdout (print appends
a newline), even when the main content is written to a file. -/
def scryfall_json_to_txt (deck_list : Option Deck) (include_sections : List String)
    (out : String) : Except String (Option String × String) :=
  match deck_list with
  | none => .error "KeyError: entries"
  | some entries =>
    let r := json_entries entries include_sections
    let formatted_card_content := String.intercalate "\n" r.1
    let land_printout :=
      if r.2 = [] then "" else banner ++ String.intercalate "\n" r.2
    if out ≠ "" then .ok (some formatted_card_content, land_printout ++ "\n")
    else .ok (none, formatted_card_content ++ "\n" ++ land_printout ++ "\n")

/- Spec-side renderings used to state the characterization theorems. -/
def is_basic (c : CardEntry) : Bool := basic_land_names.contains c.card_digest.name

def main_line_of (c : CardEntry) : String :=
  if c.printing_specified then
    toString c.count ++ " " ++ fix_name_formatting_quirks c.card_digest.name ++ " [" ++
      fix_set_code c.card_digest.set ++ "] " ++ fix_collector_number c.card_digest.collector_number
  else toString c.count ++ " " ++ fix_name_formatting_quirks c.card_digest.name

def land_line_of (c : CardEntry) : String :=
  fix_name_formatting_quirks c.card_digest.name ++ " (" ++
    fix_collector_number c.card_digest.collector_number ++ ") - (" ++
    fix_set_code c.card_digest.set ++ ")"

def isErr {α : Type} (e : Except String α) : Bool :=
  match e with
  | .error _ => true
  | .ok _ => false

/- ===== Theorems ===== -/

/- Characterization of the two loop bodies and loops by the spec-side
renderings; shared helper lemmas for the claim theorems below. -/
theorem json_card_eq (c : CardEntry) :
    json_card c = if is_basic c then Sum.inl (land_line_of c) else Sum.inr (main_line_of c) := by
  unfold json_card is_basic land_line_of main_line_of
  by_cases h : basic_land_names.contains c.card_digest.name <;> simp [h]

theorem json_section_eq (cards : List CardEntry) :
    json_section cards =
      ((cards.filter (fun c => !is_basic c)).map main_line_of,
       (cards.filter is_basic).map land_line_of) := by
  induction cards with
  | nil => rfl
  | cons c rest ih =>
    simp only [json_section, ih, json_card_eq]
    by_cases h : is_basic c <;> simp [h, List.filter_cons]

/-- C6: For every structured input document and include-set, a section's cards
are emitted if and only if the section's name is in the include-set or the
include-set contains the sentinel "all"; sections are visited in document
order and record order within a section is preserved: the emitted main lines
(resp. land lines) are exactly the in-order concatenation, over the included
sections in document order, of the rendered non-land (resp. basic-land)
records in record order. -/
theorem c6_section_inclusion (entries : Deck) (inc : List String) :
    json_entries entries inc =
      (((entries.filter (fun s => decide (s.1 ∈ inc ∨ "all" ∈ inc))).map
          (fun s => (s.2.filter (fun c => !is_basic c)).map main_line_of)).flatten,
       ((entries.filter (fun s => decide (s.1 ∈ inc ∨ "all" ∈ inc))).map
          (fun s => (s.2.filter is_basic).map land_line_of)).flatten) := by
  induction entries with
  | nil => rfl
  | cons sc rest ih =>
    obtain ⟨sec, cards⟩ := sc
    simp only [json_entries, ih, json_section_eq]
    by_cases h : sec ∈ inc ∨ "all" ∈ inc <;> simp [h, List.filter_cons]

/-- C7: For every non-land record processed by the structured pipeline, if
printing_specified is false the rendered line is exactly "{count} {name}"
with no bracketed suffix, and if true it is "{count} {name} [{SET}] {number}"
with the set code uppercased and the collector number after artifact
removal. -/
theorem c7_printing_flag (c : CardEntry) (h : is_basic c = false) :
    json_card c = Sum.inr (if c.printing_specified then
      toString c.count ++ " " ++ fix_name_formatting_quirks c.card_digest.name ++ " [" ++
        fix_set_code c.card_digest.set ++ "] " ++
        fix_collector_number c.card_digest.collector_number
    else toString c.count ++ " " ++ fix_name_formatting_quirks c.card_digest.name) := by
  rw [json_card_eq, h]
  simp [main_line_of]

theorem c7_printing_flag_wit :
    json_card ⟨3, false, ⟨"Foo", "sld", "123"⟩⟩ = Sum.inr "3 Foo" ∧
    json_card ⟨3, true, ⟨"Foo", "sld", "123"⟩⟩ = Sum.inr "3 Foo [SLD] 123" := by
  constructor
  · exact (c7_printing_flag ⟨3, false, ⟨"Foo", "sld", "123"⟩⟩ (by decide)).trans (by decide)
  · exact (c7_printing_flag ⟨3, true, ⟨"Foo", "sld", "123"⟩⟩ (by decide)).trans (by decide)

/-- C1: The structured normalizer fix_name_formatting_quirks removes every
occurrence of " Token", not only a trailing suffix: its regex alternative
" Token" carries no end anchor, contradicting the code's own comment
("the word \" Token\" at the end") and the anchored \sToken$ of the tabular
sibling.  Evaluation at the failing input "Carrot Token Cake": the structured
normalizer removes it mid-string, the tabular one leaves it unchanged. -/
theorem c1_token_removal_behavior :
    fix_name_formatting_quirks "Food Token" = "Food" ∧
    fix_other_name_formatting_quirks "Food Token" = "Food" ∧
    fix_name_formatting_quirks "Carrot Token Cake" = "Carrot Cake" ∧
    fix_other_name_formatting_quirks "Carrot Token Cake" = "Carrot Token Cake" :=
  ⟨rfl, rfl, rfl, rfl⟩

/-- C8 counterexample: alternate-face removal is not idempotent.  For the
name "A Token // B" the tabular normalizer yields "A Token" (the first face),
and a second application yields "A".  The structured normalizer yields "A"
already on the first application, which is not the first face "A Token". -/
theorem c8_face_removal_cex :
    fix_other_name_formatting_quirks "A Token // B" = "A Token" ∧
    fix_other_name_formatting_quirks (fix_other_name_formatting_quirks "A Token // B") = "A" ∧
    fix_name_formatting_quirks "A Token // B" = "A" ∧
    ("A Token" : String) ≠ "A" :=
  ⟨rfl, rfl, rfl, by decide⟩

/-- C5 counterexample: a basic land entry ("Plains") in the structured
pipeline's "lands" section does not appear in the land block when the
include-selection does not select its section: with include-set
{commanders}, the output contains no land block at all (stdout is just the
two newlines of the two empty prints), refuting "for every include-selection
... it appears in the land block". -/
theorem c5_basic_land_routing_cex :
    ("Plains" ∈ basic_land_names) ∧
    scryfall_json_to_txt (some [("lands", [⟨1, true, ⟨"Plains", "abc", "123"⟩⟩])])
      ["commanders"] "" = .ok (none, "\n\n") :=
  ⟨by decide, rfl⟩

/-- C2 counterexample: with zero land entries the tabular pipeline still
emits the banner (its output is exactly the banner when there are also no
main entries), while the structured pipeline omits the banner entirely (its
stdout is just two newlines) — the opposite of the claimed asymmetry. -/
theorem c2_banner_asymmetry_cex :
    csv_main ["count,name,set_code,collector_number,x\n"] "" = .ok (none, banner ++ "\n") ∧
    scryfall_json_to_txt (some [("lands", ([] : List CardEntry))]) ["all"] "" =
      .ok (none, "\n\n") ∧
    banner ≠ "" :=
  ⟨rfl, rfl, by decide⟩

/-- C3 counterexample: with a destination path provided, the structured
pipeline writes only the main-entry lines to the destination and still
surfaces the banner and land lines on standard output: the write is not of
the entire final text and stdout is not empty. -/
theorem c3_output_routing_cex :
    scryfall_json_to_txt (some [("lands", [⟨1, true, ⟨"Plains", "abc", "12"⟩⟩]),
        ("nonlands", [⟨2, true, ⟨"Foo", "st", "3"⟩⟩])]) ["all"] "out.txt" =
      .ok (some "2 Foo [ST] 3", banner ++ "Plains (12) - (ABC)" ++ "\n") ∧
    (banner ++ "Plains (12) - (ABC)" ++ "\n" : String) ≠ "" :=
  ⟨rfl, by decide⟩

/-- C9 counterexample: a tabular input whose header lacks set_code (and
collector_number) but which has no data rows does not raise: the per-record
column lookups are never reached and the pipeline produces output (the bare
banner). -/
theorem c9_schema_error_cex :
    ("set_code" ∉ ["count", "name", "x\n"]) ∧
    ("collector_number" ∉ ["count", "name", "x\n"]) ∧
    csv_main ["count,name,x\n"] "" = .ok (none, banner ++ "\n") :=
  ⟨by decide, by decide, rfl⟩

/-- C10 counterexample: when collector_number is the final column of the
export, its header cell keeps the line terminator ("collector_number\n"), so
the required-column lookup fails with ValueError and no line is rendered at
all — rather than every rendered line embedding the newline. -/
theorem c10_trailing_newline_cex :
    csv_main ["count,name,set_code,collector_number\n", "1,Foo,abc,123\n"] "" =
      .error "ValueError: collector_number" := rfl

/- The while loop of normalize_name walks exactly to the first cell ending in
a quotation mark, collecting the visited cells and counting the extra cells
consumed. -/
theorem collect_spec (ms : List String) (p q : String) (rest : List String)
    (hp : pyEndsWith p "\"" = false)
    (hms : ∀ m ∈ ms, pyEndsWith m "\"" = false)
    (hq : pyEndsWith q "\"" = true) :
    collect p (ms ++ q :: rest) = .ok (ms ++ [q], ms.length + 1) := by
  induction ms generalizing p with
  | nil =>
    have h1 : collect q rest = .ok ([], 0) := by unfold collect; simp [hq]
    simp [collect, hp, h1]
  | cons m ms' ih =>
    have hm : pyEndsWith m "\"" = false := hms m (by simp)
    have hrec := ih m hm (fun x hx => hms x (by simp [hx]))
    simp [collect, hp, hrec]

/-- C4: For every tabular record whose cell at the name position begins with a
quotation mark and which has more cells than the header declares, with the
quoted name split into a first fragment, intermediate fragments not ending in
a quotation mark, and a final fragment ending in one, normalize_name rejoins
the fragments with the comma delimiter, strips the surrounding quotation
marks, and returns the number of extra cells consumed as the offset — for any
number of embedded delimiters.  In particular ["\"Kurbis", " Harvest
Celebrant\""] normalizes to exactly "Kurbis, Harvest Celebrant" with offset 1,
and the row loop adds the offset to the set_code and collector_number column
indices (end-to-end evaluation on a full record). -/
theorem c4_desync_repair (front : List String) (p : String) (ms : List String) (q : String)
    (rest : List String) (expected : Nat)
    (hp1 : pyStartsWith p "\"" = true) (hp2 : pyEndsWith p "\"" = false)
    (hms : ∀ m ∈ ms, pyEndsWith m "\"" = false) (hq : pyEndsWith q "\"" = true)
    (hlen : front.length + ms.length + 2 + rest.length > expected) :
    normalize_name front.length (front ++ p :: (ms ++ q :: rest)) expected =
      .ok (pyStrip (String.intercalate "," (p :: (ms ++ [q]))) '"', ms.length + 1) ∧
    normalize_name 0 ["\"Kurbis", " Harvest Celebrant\""] 1 =
      .ok ("Kurbis, Harvest Celebrant", 1) ∧
    csv_card ["count", "name", "set_code", "collector_number", "x\n"] 0 1
      ["1", "\"Kurbis", " Harvest Celebrant\"", "abc", "205", "y\n"] =
      .ok (.inr "1 Kurbis, Harvest Celebrant [ABC] 205") := by
  refine ⟨?_, rfl, rfl⟩
  have hget : (front ++ p :: (ms ++ q :: rest)).get? front.length = some p := by
    rw [List.get?_eq_getElem?, List.getElem?_append_right (Nat.le_refl front.length)]
    simp
  have hdrop : (front ++ p :: (ms ++ q :: rest)).drop (front.length + 1) = ms ++ q :: rest := by
    have he : front ++ p :: (ms ++ q :: rest) = (front ++ [p]) ++ (ms ++ q :: rest) := by simp
    have hl : (front ++ [p]).length = front.length + 1 := by simp
    rw [he, ← hl, List.drop_left]
  have hcond : pyStartsWith p "\"" = true ∧
      (front ++ p :: (ms ++ q :: rest)).length > expected := by
    refine ⟨hp1, ?_⟩
    simp only [List.length_append, List.length_cons]
    omega
  simp only [normalize_name, hget]
  rw [if_pos hcond, hdrop, collect_spec ms p q rest hp2 hms hq]

theorem c4_desync_repair_wit :
    normalize_name 1 ["9", "\"A", " b", " c\"", "abc", "7\n"] 4 = .ok ("A, b, c", 2) := by
  have h := c4_desync_repair ["9"] "\"A" [" b"] " c\"" ["abc", "7\n"] 4
    (by decide) (by decide) (by decide) (by decide) (by decide)
  exact h.1.trans (by rfl)

/-- C2 amended: when at least one land entry exists, both pipelines append the
banner followed by the land entries joined with newline; when none exist, the
asymmetry is the reverse of the claimed one: the tabular pipeline still emits
the banner (its output text always contains it), while the structured
pipeline omits the banner entirely (its land printout is empty).  Stated as
the exact output of both pipelines, in which the banner appears
unconditionally for the tabular pipeline and guarded by land non-emptiness
for the structured one. -/
theorem c2_banner_asymmetry_amended
    (entries : Deck) (inc : List String) (ms ls : List String)
    (hj : json_entries entries inc = (ms, ls))
    (lines : List String) (hdr : List String) (rows : List (List String))
    (hsplit : lines.map (fun l => pySplit l ',') = hdr :: rows)
    (ic iname : Nat) (hic : pyIndex hdr "count" = .ok ic)
    (hin : pyIndex hdr "name" = .ok iname)
    (cms cls : List String) (hloop : csv_rows hdr ic iname rows = .ok (cms, cls)) :
    scryfall_json_to_txt (some entries) inc "" =
      .ok (none, String.intercalate "\n" ms ++ "\n" ++
        (if ls = [] then "" else banner ++ String.intercalate "\n" ls) ++ "\n") ∧
    csv_main lines "" =
      .ok (none, String.intercalate "\n" cms ++ banner ++ String.intercalate "\n" cls ++ "\n") := by
  constructor
  · simp [scryfall_json_to_txt, hj]
  · simp [csv_main, hsplit, hic, hin, hloop, Except.bind, Bind.bind, Except.pure, Pure.pure,
      Except.map, Functor.map]

theorem c2_banner_asymmetry_amended_wit :
    scryfall_json_to_txt (some [("nonlands", [⟨2, true, ⟨"Foo", "st", "3"⟩⟩])]) ["nonlands"] "" =
      .ok (none, "2 Foo [ST] 3\n\n") ∧
    csv_main ["count,name,set_code,collector_number,x\n", "1,Goo,ab,9,y\n"] "" =
      .ok (none, "1 Goo [AB] 9" ++ banner ++ "\n") := by
  have h := c2_banner_asymmetry_amended
    [("nonlands", [⟨2, true, ⟨"Foo", "st", "3"⟩⟩])] ["nonlands"] ["2 Foo [ST] 3"] [] rfl
    ["count,name,set_code,collector_number,x\n", "1,Goo,ab,9,y\n"]
    ["count", "name", "set_code", "collector_number", "x\n"] [["1", "Goo", "ab", "9", "y\n"]]
    rfl 0 1 rfl rfl ["1 Goo [AB] 9"] [] rfl
  exact ⟨h.1.trans (by rfl), h.2.trans (by rfl)⟩

/-- C3 amended: the tabular pipeline behaves as claimed — with a destination
provided the entire final text (main entries, banner, land entries) is the
single file write and standard output carries nothing; the structured
pipeline instead writes only the main-entry lines to the destination while
the banner and land entries are always surfaced on standard output (and with
no destination it surfaces main entries and land printout in two prints). -/
theorem c3_output_routing_amended
    (entries : Deck) (inc : List String) (ms ls : List String)
    (hj : json_entries entries inc = (ms, ls))
    (lines : List String) (hdr : List String) (rows : List (List String))
    (hsplit : lines.map (fun l => pySplit l ',') = hdr :: rows)
    (ic iname : Nat) (hic : pyIndex hdr "count" = .ok ic)
    (hin : pyIndex hdr "name" = .ok iname)
    (cms cls : List String) (hloop : csv_rows hdr ic iname rows = .ok (cms, cls))
    (dest os : String) (hd : dest ≠ "") (ho : os ≠ "") :
    csv_main lines dest =
      .ok (some (String.intercalate "\n" cms ++ banner ++ String.intercalate "\n" cls), "") ∧
    scryfall_json_to_txt (some entries) inc os =
      .ok (some (String.intercalate "\n" ms),
        (if ls = [] then "" else banner ++ String.intercalate "\n" ls) ++ "\n") := by
  constructor
  · simp [csv_main, hsplit, hic, hin, hloop, hd, Except.bind, Bind.bind, Except.pure, Pure.pure,
      Except.map, Functor.map]
  · simp [scryfall_json_to_txt, hj, ho]

theorem c3_output_routing_amended_wit :
    csv_main ["count,name,set_code,collector_number,x\n", "1,Goo,ab,9,y\n"] "o.txt" =
      .ok (some ("1 Goo [AB] 9" ++ banner), "") ∧
    scryfall_json_to_txt (some [("lands", [⟨1, true, ⟨"Plains", "abc", "12"⟩⟩])]) ["lands"]
        "p.txt" =
      .ok (some "", banner ++ "Plains (12) - (ABC)" ++ "\n") := by
  have h := c3_output_routing_amended
    [("lands", [⟨1, true, ⟨"Plains", "abc", "12"⟩⟩])] ["lands"] [] ["Plains (12) - (ABC)"] rfl
    ["count,name,set_code,collector_number,x\n", "1,Goo,ab,9,y\n"]
    ["count", "name", "set_code", "collector_number", "x\n"] [["1", "Goo", "ab", "9", "y\n"]]
    rfl 0 1 rfl rfl ["1 Goo [AB] 9"] [] rfl
    "o.txt" "p.txt" (by decide) (by decide)
  exact ⟨h.1.trans (by rfl), h.2.trans (by rfl)⟩

/-- C5 amended: a basic-land entry never contributes to the main entry block
and is routed to the land block — whenever it is actually processed.  For the
structured pipeline: a record whose raw digest name is one of the five basic
lands always renders as a land line (with artifact-cleaned collector number
and uppercased set code), the section's land block contains it, and the
section's main block consists exactly of the non-basic records; for the
tabular pipeline, a record whose normalized name is basic renders as the land
line with its collector number and uppercased set code.  (The original
universally quantified claim fails: an include-selection that does not select
the entry's section drops it entirely — see the counterexample.) -/
theorem c5_basic_land_routing_amended
    (c : CardEntry) (cards : List CardEntry) (hc : c ∈ cards) (hb : is_basic c = true)
    (hdr card : List String) (ic iname : Nat)
    (count name0 : String) (off : Nat) (i1 i2 : Nat) (sc num prev : String)
    (hcount : pyGetN card ic = .ok count)
    (hn : normalize_name iname card hdr.length = .ok (name0, off))
    (hfix : basic_land_names.contains (fix_other_name_formatting_quirks name0) = true)
    (hi1 : pyIndex hdr "set_code" = .ok i1) (hi2 : pyIndex hdr "collector_number" = .ok i2)
    (hsc : pyGetN card (i1 + off) = .ok sc) (hnum : pyGetN card (i2 + off) = .ok num)
    (hprev : pyGetI card (((i1 + off : Nat) : Int) - 1) = .ok prev) :
    json_card c = Sum.inl (land_line_of c) ∧
    land_line_of c ∈ (json_section cards).2 ∧
    (json_section cards).1 = (cards.filter (fun x => !is_basic x)).map main_line_of ∧
    csv_card hdr ic iname card = .ok (.inl (fix_other_name_formatting_quirks name0 ++ " (" ++
      num ++ ") - " ++ prev ++ " (" ++ pyUpper sc ++ ")")) := by
  refine ⟨?_, ?_, ?_, ?_⟩
  · rw [json_card_eq, hb]; rfl
  · rw [json_section_eq]
    simp only [List.mem_map, List.mem_filter]
    exact ⟨c, ⟨hc, hb⟩, rfl⟩
  · rw [json_section_eq]
  · have hfix2 : fix_other_name_formatting_quirks name0 ∈ basic_land_names := by
      simpa using hfix
    have hprev2 : pyGetI card ((i1 : Int) + (off : Int) - 1) = .ok prev := by
      rw [← Nat.cast_add]; exact hprev
    simp [csv_card, hcount, hn, hi1, hi2, hfix2, hsc, hnum, hprev2, Except.bind, Bind.bind,
      Except.pure, Pure.pure, Except.map, Functor.map]

theorem c5_basic_land_routing_amended_wit :
    json_card ⟨1, true, ⟨"Plains", "abc", "123"⟩⟩ = Sum.inl "Plains (123) - (ABC)" ∧
    "Plains (123) - (ABC)" ∈
      (json_section [⟨1, true, ⟨"Plains", "abc", "123"⟩⟩]).2 ∧
    csv_card ["count", "name", "type", "set_code", "collector_number", "z\n"] 0 1
      ["4", "Island", "Basic Land", "ab", "12", "z\n"] =
      .ok (.inl "Island (12) - Basic Land (AB)") := by
  have h := c5_basic_land_routing_amended
    ⟨1, true, ⟨"Plains", "abc", "123"⟩⟩ [⟨1, true, ⟨"Plains", "abc", "123"⟩⟩] (by simp)
    (by decide) ["count", "name", "type", "set_code", "collector_number", "z\n"]
    ["4", "Island", "Basic Land", "ab", "12", "z\n"] 0 1
    "4" "Island" 0 3 4 "ab" "12" "Basic Land"
    rfl rfl (by decide) rfl rfl rfl rfl rfl
  exact ⟨h.1.trans (by rfl), h.2.1, h.2.2.2.trans (by rfl)⟩

/- When the header lacks the set_code or collector_number column, processing
any data row fails: the per-record column lookup raises. -/
theorem csv_card_err (hdr : List String) (ic iname : Nat) (card : List String)
    (h : "set_code" ∉ hdr ∨ "collector_number" ∉ hdr) :
    isErr (csv_card hdr ic iname card) = true := by
  unfold csv_card
  cases h1 : pyGetN card ic with
  | error e => simp [isErr, Except.bind, Bind.bind]
  | ok count =>
    cases h2 : normalize_name iname card hdr.length with
    | error e => simp [isErr, Except.bind, Bind.bind]
    | ok r =>
      obtain ⟨name0, off⟩ := r
      rcases h with h | h
      · simp [pyIndex, h, isErr, Except.bind, Bind.bind]
      · cases h3 : pyIndex hdr "set_code" with
        | error e => simp [isErr, Except.bind, Bind.bind]
        | ok i1 => simp [pyIndex, h, h3, isErr, Except.bind, Bind.bind]

/-- C9 amended: a tabular header lacking count or name always raises; a
header lacking set_code or collector_number raises exactly when at least one
data row exists (the lookup happens per record), so a rowless input with
those columns missing silently produces output (see the counterexample); a
structured input lacking the top-level "entries" key always raises.  In every
raising case the pipeline returns no output at all (the model produces output
only on success, matching the source, which writes the destination file only
after the whole transform). -/
theorem c9_schema_error_amended
    (lines : List String) (dest : String) (hdr : List String) (rows : List (List String))
    (hsplit : lines.map (fun l => pySplit l ',') = hdr :: rows)
    (hmiss : "count" ∉ hdr ∨ "name" ∉ hdr ∨
      (("set_code" ∉ hdr ∨ "collector_number" ∉ hdr) ∧ rows ≠ []))
    (inc : List String) (os : String) :
    isErr (csv_main lines dest) = true ∧
    scryfall_json_to_txt none inc os = .error "KeyError: entries" := by
  refine ⟨?_, rfl⟩
  rcases hmiss with h | h | ⟨h, hr⟩
  · simp [csv_main, hsplit, pyIndex, h, isErr, Except.bind, Bind.bind]
  · have h2 : pyIndex hdr "name" = .error "ValueError: name" := by simp [pyIndex, h]
    cases h1 : pyIndex hdr "count" with
    | error e => simp [csv_main, hsplit, h1, isErr, Except.bind, Bind.bind]
    | ok ic => simp [csv_main, hsplit, h1, h2, isErr, Except.bind, Bind.bind]
  · obtain ⟨r, rs, rfl⟩ : ∃ r rs, rows = r :: rs := by
      cases rows with
      | nil => exact absurd rfl hr
      | cons r rs => exact ⟨r, rs, rfl⟩
    cases h1 : pyIndex hdr "count" with
    | error e => simp [csv_main, hsplit, h1, isErr, Except.bind, Bind.bind]
    | ok ic =>
      cases h2 : pyIndex hdr "name" with
      | error e => simp [csv_main, hsplit, h1, h2, isErr, Except.bind, Bind.bind]
      | ok iname =>
        have hcard := csv_card_err hdr ic iname r h
        cases h3 : csv_card hdr ic iname r with
        | error e =>
          simp [csv_main, hsplit, h1, h2, csv_rows, h3, isErr, Except.bind, Bind.bind]
        | ok v => rw [h3] at hcard; simp [isErr] at hcard

theorem c9_schema_error_amended_wit :
    isErr (csv_main ["name,count\n"] "") = true ∧
    scryfall_json_to_txt none [] "" = .error "KeyError: entries" :=
  c9_schema_error_amended ["name,count\n"] "" ["name", "count\n"] [] rfl
    (Or.inl (by decide)) [] ""

/- Splitting a line that ends in a newline on the comma delimiter leaves the
newline on the final field: nothing strips the line terminator. -/
theorem pySplitChar_last_newline (l : List Char) :
    ∃ ps p, pySplitChar ',' (l ++ ['\n']) = ps ++ [p ++ ['\n']] := by
  induction l with
  | nil => exact ⟨[], [], rfl⟩
  | cons c l2 ih =>
    obtain ⟨ps, p, hp⟩ := ih
    by_cases hc : c = ','
    · subst hc
      exact ⟨[] :: ps, p, by simp [pySplitChar, hp]⟩
    · cases ps with
      | nil => exact ⟨[], c :: p, by simp [pySplitChar, hp, hc]⟩
      | cons a ps2 => exact ⟨(c :: a) :: ps2, p, by simp [pySplitChar, hp, hc]⟩

/-- C10 amended: each input line is split on the delimiter without stripping
the line terminator, so the final field of every newline-terminated line
keeps its trailing newline; a rendered non-land line embeds that newline
exactly when the collector-number cell is the final cell of its data row
while the header declares further columns (short row) — evaluated end to end
on such a row, where the rendered line is "1 Foo [ABC] 123\n".  When
collector_number is instead the final header column, the lookup of the
required column fails and nothing is rendered (see the counterexample). -/
theorem c10_trailing_newline_amended (l : List Char) :
    (∃ ps p, pySplit ⟨l ++ ['\n']⟩ ',' = ps ++ [String.mk (p ++ ['\n'])]) ∧
    csv_main ["count,name,set_code,collector_number,extra\n", "1,Foo,abc,123\n"] "" =
      .ok (none, "1 Foo [ABC] 123\n" ++ banner ++ "\n") := by
  constructor
  · obtain ⟨ps, p, hp⟩ := pySplitChar_last_newline l
    exact ⟨ps.map (fun x => ⟨x⟩), p, by simp [pySplit, hp]⟩
  · rfl

/- Every successful match consumes at least one character. -/
theorem matchFace_shortens {s rem : List Char} (h : matchFace s = some rem) :
    rem.length < s.length := by
  unfold matchFace at h
  split at h
  · split at h
    · cases h
      next a b rest _ =>
        have hle := (List.dropWhile_sublist (l := rest) (fun c => !(c == '\n'))).length_le
        simp only [List.length_cons]
        omega
    · exact absurd h (by simp)
  · exact absurd h (by simp)

theorem matchTok_shortens {s rem : List Char} (h : matchTok s = some rem) :
    rem.length < s.length := by
  unfold matchTok at h
  split at h
  · cases h
    simp only [List.length_cons]
    omega
  · exact absurd h (by simp)

theorem matchTokEnd_shortens {s rem : List Char} (h : matchTokEnd s = some rem) :
    rem.length < s.length := by
  unfold matchTokEnd at h
  split at h
  · split at h
    · cases h
      simp only [List.length_cons]
      omega
    · exact absurd h (by simp)
  · exact absurd h (by simp)

/- Any fuel of at least the input length computes the same substitution. -/
theorem reSubQuirks_fuel (alt : List Char → Option (List Char))
    (halt : ∀ {s rem : List Char}, alt s = some rem → rem.length < s.length) :
    ∀ f1 f2 (s : List Char), s.length ≤ f1 → s.length ≤ f2 →
      reSubQuirks alt f1 s = reSubQuirks alt f2 s := by
  intro f1
  induction f1 with
  | zero =>
    intro f2 s h1 _
    obtain rfl : s = [] := List.length_eq_zero.mp (Nat.le_zero.mp h1)
    cases f2 <;> rfl
  | succ f ih =>
    intro f2 s h1 h2
    cases s with
    | nil => cases f2 <;> rfl
    | cons c rest =>
      cases f2 with
      | zero => simp at h2
      | succ f2p =>
        simp only [reSubQuirks]
        cases hm : matchFace (c :: rest) with
        | some rem =>
          have hlt := matchFace_shortens hm
          exact ih f2p rem (by simp only [List.length_cons] at h1 hlt ⊢; omega)
            (by simp only [List.length_cons] at h2 hlt ⊢; omega)
        | none =>
          cases ha : alt (c :: rest) with
          | some rem =>
            have hlt := halt ha
            exact ih f2p rem (by simp only [List.length_cons] at h1 hlt ⊢; omega)
              (by simp only [List.length_cons] at h2 hlt ⊢; omega)
          | none =>
            have := ih f2p rest (by simp only [List.length_cons] at h1; omega)
              (by simp only [List.length_cons] at h2; omega)
            rw [this]

/- If no alternative matches at any position strictly inside the prefix `a`,
the scan copies `a` verbatim and continues on the remainder. -/
theorem reSubQuirks_skip (alt : List Char → Option (List Char)) (a r : List Char) (f : Nat)
    (hf : (a ++ r).length ≤ f)
    (hnm : ∀ i < a.length, matchFace ((a ++ r).drop i) = none ∧ alt ((a ++ r).drop i) = none) :
    reSubQuirks alt f (a ++ r) = a ++ reSubQuirks alt (f - a.length) r := by
  induction a generalizing f with
  | nil => simp
  | cons c a2 ih =>
    cases f with
    | zero => simp at hf
    | succ fp =>
      have h0 := hnm 0 (by simp)
      simp only [List.drop_zero, List.cons_append] at h0
      simp only [List.cons_append, reSubQuirks, List.append_eq, h0.1, h0.2]
      have hnm2 : ∀ i < a2.length,
          matchFace ((a2 ++ r).drop i) = none ∧ alt ((a2 ++ r).drop i) = none := by
        intro i hi
        have := hnm (i + 1) (by simp only [List.length_cons]; omega)
        simpa using this
      have hfp : (a2 ++ r).length ≤ fp := by
        simp only [List.cons_append, List.length_cons] at hf
        omega
      have hfuel : fp + 1 - (c :: a2).length = fp - a2.length := by
        simp only [List.length_cons]; omega
      rw [hfuel, ih fp hfp hnm2]

theorem reSubQuirks_nil (alt : List Char → Option (List Char)) (f : Nat) :
    reSubQuirks alt f [] = [] := by
  cases f <;> rfl

/- A name of the form `a ++ " // " ++ b` with no newline in `b` and no match
inside `a` is truncated to exactly `a`: at the separator the face alternative
matches and `.*` consumes the whole remainder. -/
theorem reSubQuirks_face_cut (alt : List Char → Option (List Char)) (a b : List Char)
    (hb : '\n' ∉ b)
    (hnm : ∀ i < a.length,
      matchFace ((a ++ ' ' :: '/' :: '/' :: ' ' :: b).drop i) = none ∧
      alt ((a ++ ' ' :: '/' :: '/' :: ' ' :: b).drop i) = none) :
    reSubQuirks alt (a ++ ' ' :: '/' :: '/' :: ' ' :: b).length
      (a ++ ' ' :: '/' :: '/' :: ' ' :: b) = a := by
  rw [reSubQuirks_skip alt a _ _ (Nat.le_refl _) hnm]
  have hlen : (a ++ ' ' :: '/' :: '/' :: ' ' :: b).length - a.length = b.length + 3 + 1 := by
    simp only [List.length_append, List.length_cons]
    omega
  rw [hlen]
  have hface : matchFace (' ' :: '/' :: '/' :: ' ' :: b) =
      some (b.dropWhile (fun c => !(c == '\n'))) := by
    simp [matchFace, isWs]
  have hdw : b.dropWhile (fun c => !(c == '\n')) = [] := by
    refine List.dropWhile_eq_nil_iff.mpr (fun x hx => ?_)
    simp only [Bool.not_eq_true']
    exact beq_eq_false_iff_ne.mpr (fun h => hb (h ▸ hx))
  simp only [reSubQuirks, hface, hdw, reSubQuirks_nil, List.append_nil]

/- A name with no match at any position is a fixed point of the scan. -/
theorem reSubQuirks_fix (alt : List Char → Option (List Char)) (a : List Char)
    (hnm : ∀ i < a.length, matchFace (a.drop i) = none ∧ alt (a.drop i) = none) :
    reSubQuirks alt a.length a = a := by
  have h := reSubQuirks_skip alt a [] a.length (by simp)
    (by intro i hi; simpa using hnm i hi)
  simpa [reSubQuirks_nil] using h

/-- C8 amended: for a name of the form `a ++ " // " ++ b` in which the second
face `b` contains no newline and no quirk pattern matches inside the first
face `a` (no face separator, no " Token" occurrence for the structured
normalizer, no end-anchored whitespace+"Token" for the tabular one, stated as
the no-match hypotheses below), one application of either normalizer yields
exactly the first face `a` and a second application leaves it unchanged.
Without the proviso on `a`, idempotence fails: "A Token // B" normalizes
(tabular) to "A Token" and then to "A" — see the counterexample. -/
theorem c8_face_removal_amended (a b : List Char) (s : String)
    (hs : s.data = a ++ ' ' :: '/' :: '/' :: ' ' :: b)
    (hb : '\n' ∉ b)
    (hctx : ∀ i < a.length,
      matchFace ((a ++ ' ' :: '/' :: '/' :: ' ' :: b).drop i) = none ∧
      matchTok ((a ++ ' ' :: '/' :: '/' :: ' ' :: b).drop i) = none ∧
      matchTokEnd ((a ++ ' ' :: '/' :: '/' :: ' ' :: b).drop i) = none)
    (hself : ∀ i < a.length,
      matchFace (a.drop i) = none ∧ matchTok (a.drop i) = none ∧
      matchTokEnd (a.drop i) = none) :
    fix_name_formatting_quirks s = ⟨a⟩ ∧
    fix_other_name_formatting_quirks s = ⟨a⟩ ∧
    fix_name_formatting_quirks ⟨a⟩ = ⟨a⟩ ∧
    fix_other_name_formatting_quirks ⟨a⟩ = ⟨a⟩ := by
  refine ⟨?_, ?_, ?_, ?_⟩
  · unfold fix_name_formatting_quirks
    rw [hs]
    exact congrArg String.mk (reSubQuirks_face_cut matchTok a b hb
      (fun i hi => ⟨(hctx i hi).1, (hctx i hi).2.1⟩))
  · unfold fix_other_name_formatting_quirks
    rw [hs]
    exact congrArg String.mk (reSubQuirks_face_cut matchTokEnd a b hb
      (fun i hi => ⟨(hctx i hi).1, (hctx i hi).2.2⟩))
  · exact congrArg String.mk (reSubQuirks_fix matchTok a
      (fun i hi => ⟨(hself i hi).1, (hself i hi).2.1⟩))
  · exact congrArg String.mk (reSubQuirks_fix matchTokEnd a
      (fun i hi => ⟨(hself i hi).1, (hself i hi).2.2⟩))

theorem c8_face_removal_amended_wit :
    fix_name_formatting_quirks "Virtue of Strength // Garenbrig Growth" =
      "Virtue of Strength" ∧
    fix_other_name_formatting_quirks "Virtue of Strength // Garenbrig Growth" =
      "Virtue of Strength" ∧
    fix_name_formatting_quirks "Virtue of Strength" = "Virtue of Strength" ∧
    fix_other_name_formatting_quirks "Virtue of Strength" = "Virtue of Strength" := by
  have h := c8_face_removal_amended ("Virtue of Strength".data) ("Garenbrig Growth".data)
    "Virtue of Strength // Garenbrig Growth" (by decide) (by decide) (by decide) (by decide)
  exact ⟨h.1, h.2.1, h.2.2.1, h.2.2.2⟩
